import Mathlib

/-!
Shallow embedding of `utils.py` from the micropyserver repository
(request-parsing and response-formatting primitives of a minimal
HTTP/1.0 server), together with theorems settling the specification
claims about it.

Conventions used throughout:

* Python strings are Lean `String`s; Python `bytes` are `List Nat`
  (each element a byte value `< 256`).
* A Python function that can raise an uncaught exception is modelled
  with `Option`/`Except`: `none`/`.error` is the exception.
* The caller-supplied transport (`server.send` / `server.send_binary`)
  is modelled by returning the ordered list of arguments passed to the
  send operations.  `.error tr` means an uncaught exception was raised
  after the sends in `tr` had already happened.
* Python dicts are modelled as insertion-ordered association lists;
  `dictUpsert` mirrors `d[key] = value` (update in place, append new
  keys at the end), which gives dict's last-write-wins semantics.
* The `re` patterns of `utils.py` are translated by hand into explicit
  scanners that implement exactly the leftmost-then-greedy matching
  the Python `re` engine performs on those patterns (including the
  "last iteration of a repeated group" capture rule).
-/

/-- Python `s.split(sep)` for a single-character separator, on char lists:
`"a&b" ↦ ["a", "b"]`, keeping empty fields (`"&b" ↦ ["", "b"]`). -/
def splitOnChar (sep : Char) : List Char → List (List Char)
  | [] => [[]]
  | c :: rest =>
    if c = sep then [] :: splitOnChar sep rest
    else
      match splitOnChar sep rest with
      | [] => [[c]]
      | piece :: pieces => (c :: piece) :: pieces

/-- Python `bytes.split(sep)` for a single-byte separator, on byte lists. -/
def splitOnByte (sep : Nat) : List Nat → List (List Nat)
  | [] => [[]]
  | b :: rest =>
    if b = sep then [] :: splitOnByte sep rest
    else
      match splitOnByte sep rest with
      | [] => [[b]]
      | piece :: pieces => (b :: piece) :: pieces

/-- Python `d[key] = value` on an insertion-ordered association list:
replace the value of an existing key in place, else append at the end. -/
def dictUpsert (d : List (String × String)) (key value : String) :
    List (String × String) :=
  match d with
  | [] => [(key, value)]
  | (k, v) :: rest =>
    if k = key then (key, value) :: rest else (k, v) :: dictUpsert rest key value

/-- Python `d.get(key)` on an association list (used for `HTTP_CODES.get`). -/
def dictGet (code : Nat) : List (Nat × String) → Option String
  | [] => none
  | (k, v) :: rest => if k = code then some v else dictGet code rest

/-- Python `d.get(key)` for string keys: the value of `key` in the mapping. -/
def lookupDict (d : List (String × String)) (key : String) : Option String :=
  match d with
  | [] => none
  | (k, v) :: rest => if k = key then some v else lookupDict rest key

/-- The `HTTP_CODES` table of `utils.py` (status code to reason phrase). -/
def HTTP_CODES : List (Nat × String) :=
  [(100, "Continue"),
   (101, "Switching protocols"),
   (102, "Processing"),
   (200, "Ok"),
   (201, "Created"),
   (202, "Accepted"),
   (203, "Non authoritative information"),
   (204, "No content"),
   (205, "Reset content"),
   (206, "Partial content"),
   (207, "Multi status"),
   (208, "Already reported"),
   (226, "Im used"),
   (300, "Multiple choices"),
   (301, "Moved permanently"),
   (302, "Found"),
   (303, "See other"),
   (304, "Not modified"),
   (305, "Use proxy"),
   (307, "Temporary redirect"),
   (308, "Permanent redirect"),
   (400, "Bad request"),
   (401, "Unauthorized"),
   (402, "Payment required"),
   (403, "Forbidden"),
   (404, "Not found"),
   (405, "Method not allowed"),
   (406, "Not acceptable"),
   (407, "Proxy authentication required"),
   (408, "Request timeout"),
   (409, "Conflict"),
   (410, "Gone"),
   (411, "Length required"),
   (412, "Precondition failed"),
   (413, "Request entity too large"),
   (414, "Request uri too long"),
   (415, "Unsupported media type"),
   (416, "Request range not satisfiable"),
   (417, "Expectation failed"),
   (418, "I am a teapot"),
   (422, "Unprocessable entity"),
   (423, "Locked"),
   (424, "Failed dependency"),
   (426, "Upgrade required"),
   (428, "Precondition required"),
   (429, "Too many requests"),
   (431, "Request header fields too large"),
   (500, "Internal server error"),
   (501, "Not implemented"),
   (502, "Bad gateway"),
   (503, "Service unavailable"),
   (504, "Gateway timeout"),
   (505, "Http version not supported"),
   (506, "Variant also negotiates"),
   (507, "Insufficient storage"),
   (508, "Loop detected"),
   (510, "Not extended"),
   (511, "Network authentication required")]

/-- The `MIME_TYPES` table of `utils.py` (file extension to MIME type). -/
def MIME_TYPES : List (String × String) :=
  [("htm", "text/html"),
   ("html", "text/html"),
   ("txt", "text/plain"),
   ("png", "image/png"),
   ("jpg", "image/jpeg"),
   ("jpeg", "image/jpeg"),
   ("json", "application/json"),
   ("css", "text/css"),
   ("ico", "image/vnd.microsoft.icon"),
   ("js", "text/javascript"),
   ("cjs", "text/javascript"),
   ("vsg", "image/svg+xml"),
   ("webp", "image/webp"),
   ("map", "application/octet-stream")]

/-- Model of `send_response(server, response, http_code, content_type,
extend_headers)`.  The result is the ordered list of strings passed to
`server.send`.  When `http_code` is not a key of `HTTP_CODES`,
`HTTP_CODES.get(http_code)` is `None` and the concatenation
`"HTTP/1.0 " + str(http_code) + " " + None` raises `TypeError` while the
argument of the first `server.send` call is being evaluated, so no send
happens at all: this is modelled as `.error []` (exception, empty trace). -/
def sendResponse (response : String) (httpCode : Nat) (contentType : String)
    (extendHeaders : Option (List String)) :
    Except (List String) (List String) :=
  match dictGet httpCode HTTP_CODES with
  | none => .error []
  | some reason =>
    .ok (["HTTP/1.0 " ++ Nat.repr httpCode ++ " " ++ reason ++ "\r\n",
          "Content-Type:" ++ contentType ++ "\r\n"]
         ++ (match extendHeaders with
             | none => []
             | some hs => hs.map (fun h => h ++ "\r\n"))
         ++ ["\r\n", response])

/-- One transport call: `server.send(text)` or `server.send_binary(bytes)`. -/
inductive SendEvent where
  | text (s : String)
  | binary (b : List Nat)
deriving DecidableEq

/-- Model of `send_binary_response(server, response, file_size, http_code,
content_type, extend_headers)`.  Identical to `sendResponse` but with a
`Content-Length` header whose value is `str(file_size)` — the caller-supplied
`file_size` argument — and with the body sent through `server.send_binary`. -/
def sendBinaryResponse (response : List Nat) (fileSize : Nat) (httpCode : Nat)
    (contentType : String) (extendHeaders : Option (List String)) :
    Except (List SendEvent) (List SendEvent) :=
  match dictGet httpCode HTTP_CODES with
  | none => .error []
  | some reason =>
    .ok ([SendEvent.text ("HTTP/1.0 " ++ Nat.repr httpCode ++ " " ++ reason
            ++ "\r\n"),
          SendEvent.text ("Content-Type:" ++ contentType ++ "\r\n"),
          SendEvent.text ("Content-Length:" ++ Nat.repr fileSize ++ "\r\n")]
         ++ (match extendHeaders with
             | none => []
             | some hs => hs.map (fun h => SendEvent.text (h ++ "\r\n")))
         ++ [SendEvent.text "\r\n", SendEvent.binary response])

/-- Python `request.split("\r\n")[0]`: the characters before the first
`"\r\n"` occurrence (the whole string if there is none). -/
def firstLineChars : List Char → List Char
  | [] => []
  | '\r' :: '\n' :: _ => []
  | c :: rest => c :: firstLineChars rest

/-- Character class `[A-Z]` of the `re` patterns in `utils.py`. -/
def isUpperAZ (c : Char) : Bool := 'A' ≤ c && c ≤ 'Z'

/-- Character class `\s` of Python `re` on `str` patterns: the Unicode
whitespace characters. -/
def isPySpace (c : Char) : Bool :=
  c ∈ [' ', '\t', '\n', '\r', '\x0b', '\x0c',
       '\x1c', '\x1d', '\x1e', '\x1f', '\u0085', '\u00a0',
       '\u1680', '\u2000', '\u2001', '\u2002', '\u2003', '\u2004',
       '\u2005', '\u2006', '\u2007', '\u2008', '\u2009', '\u200a',
       '\u2028', '\u2029', '\u202f', '\u205f', '\u3000']

/-- Character class `[-a-zA-Z0-9_.]` of the path pattern in
`get_request_path`. -/
def isPathChar (c : Char) : Bool :=
  c = '-' || ('a' ≤ c && c ≤ 'z') || ('A' ≤ c && c ≤ 'Z')
    || ('0' ≤ c && c ≤ '9') || c = '_' || c = '.'

/-- Model of `get_request_method(request)`:
`re.search("^([A-Z]+)", lines[0]).group(1)` is the leading run of
uppercase letters of the first line; when the line does not start with
an uppercase letter the search returns `None` and `.group(1)` raises
`AttributeError`, modelled as `none`. -/
def getRequestMethod (request : String) : Option String :=
  let line := firstLineChars request.data
  let run := line.takeWhile isUpperAZ
  if run.isEmpty then none else some (String.mk run)

/-- Capture of the repeated group `(/[-a-zA-Z0-9_.]*)*` over the span it
matches: Python `re` keeps only the text of the last iteration of a
repeated group, so a `'/'` starts the capture afresh and a path character
extends it. -/
def lastGroupAcc (span : List Char) : List Char :=
  span.foldl (fun acc c => if c = '/' then ['/'] else acc ++ [c]) []

/-- Model of `get_request_path(request)`:
`re.search("^[A-Z]+\\s+(/[-a-zA-Z0-9_.]*)*", lines[0]).group(1)`.
The pattern needs a nonempty run of `[A-Z]` at the start of the first
line followed by a nonempty run of `\s` (otherwise the search returns
`None` and `.group(1)` raises `AttributeError`: outer `none`).  The
repeated group then greedily consumes the maximal following run of
characters that are `'/'` or path characters, provided it starts with
`'/'`; `group(1)` is the last iteration `'/' ++ segment` of that run, or
`None` (modelled `some none`) when the group matched zero times. -/
def getRequestPath (request : String) : Option (Option String) :=
  let line := firstLineChars request.data
  if (line.takeWhile isUpperAZ).isEmpty then none
  else
    let afterMethod := line.dropWhile isUpperAZ
    if (afterMethod.takeWhile isPySpace).isEmpty then none
    else
      let afterSpace := afterMethod.dropWhile isPySpace
      let span := afterSpace.takeWhile (fun c => c = '/' || isPathChar c)
      match span with
      | [] => some none
      | c :: _ =>
        if c = '/' then some (some (String.mk (lastGroupAcc span))) else some none

/-- Largest index of a `\s` character in the list, if any. -/
def lastSpacePos : List Char → Option Nat
  | [] => none
  | c :: rest =>
    match lastSpacePos rest with
    | some p => some (p + 1)
    | none => if isPySpace c then some 0 else none

/-- Attempt of the pattern `\?(.+)\s` at one `'?'` position, given the
characters after the `'?'`.  `.` matches anything except `'\n'`, so
`(.+)` can cover at most the maximal `'\n'`-free run `r` after the
`'?'`; greedily it ends just before the last possible `\s`.  When the
run is stopped by a `'\n'`, that newline itself matches `\s`, so the
group is all of `r`; when the run reaches the end of the line, the
group ends before the last `\s` inside `r` (which must leave a nonempty
group).  Returns the captured group, or `none` when the pattern cannot
match at this position. -/
def qsTry (tail : List Char) : Option (List Char) :=
  let r := tail.takeWhile (fun c => c != '\n')
  if r.isEmpty then none
  else if (tail.drop r.length).isEmpty then
    match lastSpacePos r with
    | some p => if 1 ≤ p then some (r.take p) else none
    | none => none
  else some r

/-- Leftmost-match scan of `re.search("\\?(.+)\\s", line)`: try the
pattern at each `'?'` of the line, left to right. -/
def qsScan : List Char → Option (List Char)
  | [] => none
  | c :: rest =>
    if c = '?' then
      match qsTry rest with
      | some g => some g
      | none => qsScan rest
    else qsScan rest

/-- Model of `get_request_query_string(request)`: search the first line
for `\?(.+)\s`; return `""` when there is no match, else `group(1)`. -/
def getRequestQueryString (request : String) : String :=
  match qsScan (firstLineChars request.data) with
  | none => ""
  | some g => String.mk g

/-- Model of `parse_query_string(query_string)`: empty input gives the
empty dict; otherwise split on `"&"`, split every token on **all** its
`"="` (Python `param_string.split("=")`), take `param[0]` as key and
`param[1]` as value (`""` when the token has no `"="`; any third and
later fields are dropped), and write the pair into the dict. -/
def parseQueryString (queryString : String) : List (String × String) :=
  if queryString.data.isEmpty then []
  else
    (splitOnChar '&' queryString.data).foldl
      (fun d paramString =>
        let param := splitOnChar '=' paramString
        let key := String.mk (param.headD [])
        let value :=
          if param.length = 1 then "" else String.mk (param.getD 1 [])
        dictUpsert d key value) []

/-- Model of `get_request_query_params(request)`. -/
def getRequestQueryParams (request : String) : List (String × String) :=
  parseQueryString (getRequestQueryString request)

/-- Scan of `re.search("\r\n\r\n(.+)", request)`: at each position, if the
buffer starts with `"\r\n\r\n"` and a nonempty `'\n'`-free run follows,
the greedy `(.+)` captures that whole run; otherwise the search moves on
one character. -/
def bodyScan : List Char → Option (List Char)
  | [] => none
  | c :: rest =>
    if c = '\r' ∧ rest.take 3 = ['\n', '\r', '\n'] then
      let r := (rest.drop 3).takeWhile (fun x => x != '\n')
      if r.isEmpty then bodyScan rest else some r
    else bodyScan rest

/-- Model of `get_request_body(request)`: `group(1)` of the search above,
or the Python empty dict `{}` when the search fails — the dict case is
modelled as `none` (note the heterogeneous return type of the source). -/
def getRequestBody (request : String) : Option String :=
  (bodyScan request.data).map String.mk

/-- Value of `parse_query_string(get_request_body(request))`: when the
body is the `{}` dict, `len({}) == 0` makes `parse_query_string` return
the empty dict. -/
def parseQueryStringOfBody : Option String → List (String × String)
  | none => []
  | some b => parseQueryString b

/-- Model of `get_request_post_params(request, expected_method)`: the
method is parsed first (an `AttributeError` from `get_request_method`
propagates: outer `none`); `None` (modelled `some none`) is returned when
it differs from `expected_method`; otherwise the body is parsed as a
query string. -/
def getRequestPostParams (request : String) (expectedMethod : String) :
    Option (Option (List (String × String))) :=
  match getRequestMethod request with
  | none => none
  | some m =>
    if m ≠ expectedMethod then some none
    else some (some (parseQueryStringOfBody (getRequestBody request)))


/-- UTF-8 encoding of one character (Python `str.encode("utf-8")`,
character-wise). -/
def utf8EncodeChar (c : Char) : List Nat :=
  let n := c.toNat
  if n < 0x80 then [n]
  else if n < 0x800 then [0xc0 + n / 64, 0x80 + n % 64]
  else if n < 0x10000 then
    [0xe0 + n / 4096, 0x80 + n / 64 % 64, 0x80 + n % 64]
  else
    [0xf0 + n / 262144, 0x80 + n / 4096 % 64, 0x80 + n / 64 % 64,
     0x80 + n % 64]

/-- Python `string.encode("utf-8")` as a byte list. -/
def utf8Encode (s : String) : List Nat := (s.data.map utf8EncodeChar).flatten

/-- Strict UTF-8 decoding, one step per leading byte (Python
`bytes.decode("utf-8")`): rejects truncated sequences, stray
continuation bytes, overlong encodings, surrogate code points and
values above `U+10FFFF`; `none` is the `UnicodeDecodeError`.  The fuel
argument only makes the recursion structural; one unit is spent per
decoded code point, so any fuel at least the byte length suffices. -/
def utf8DecodeLoop : Nat → List Nat → Option (List Char)
  | _, [] => some []
  | 0, _ :: _ => none
  | fuel + 1, b :: rest =>
    if b < 0x80 then
      (utf8DecodeLoop fuel rest).map (fun cs => Char.ofNat b :: cs)
    else if b < 0xc2 then none
    else if b < 0xe0 then
      if rest.length < 1 then none
      else
        let b2 := rest.getD 0 0
        if 0x80 ≤ b2 ∧ b2 < 0xc0 then
          (utf8DecodeLoop fuel (rest.drop 1)).map
            (fun cs => Char.ofNat ((b - 0xc0) * 64 + (b2 - 0x80)) :: cs)
        else none
    else if b < 0xf0 then
      if rest.length < 2 then none
      else
        let b2 := rest.getD 0 0
        let b3 := rest.getD 1 0
        if (0x80 ≤ b2 ∧ b2 < 0xc0) ∧ (0x80 ≤ b3 ∧ b3 < 0xc0)
            ∧ (b = 0xe0 → 0xa0 ≤ b2) ∧ (b = 0xed → b2 < 0xa0) then
          (utf8DecodeLoop fuel (rest.drop 2)).map
            (fun cs => Char.ofNat ((b - 0xe0) * 4096 + (b2 - 0x80) * 64
              + (b3 - 0x80)) :: cs)
        else none
    else if b < 0xf5 then
      if rest.length < 3 then none
      else
        let b2 := rest.getD 0 0
        let b3 := rest.getD 1 0
        let b4 := rest.getD 2 0
        if (0x80 ≤ b2 ∧ b2 < 0xc0) ∧ (0x80 ≤ b3 ∧ b3 < 0xc0)
            ∧ (0x80 ≤ b4 ∧ b4 < 0xc0)
            ∧ (b = 0xf0 → 0x90 ≤ b2) ∧ (b = 0xf4 → b2 < 0x90) then
          (utf8DecodeLoop fuel (rest.drop 3)).map
            (fun cs => Char.ofNat ((b - 0xf0) * 262144 + (b2 - 0x80) * 4096
              + (b3 - 0x80) * 64 + (b4 - 0x80)) :: cs)
        else none
    else none

/-- Python `bytes.decode("utf-8")` on a byte list. -/
def utf8Decode (l : List Nat) : Option (List Char) := utf8DecodeLoop l.length l

/-- True for the bytes `int()` strips as ASCII whitespace. -/
def isPyIntWsB (b : Nat) : Bool :=
  b = 32 || b = 9 || b = 10 || b = 13 || b = 11 || b = 12

/-- True for the ASCII hexadecimal digit bytes. -/
def isHexDigitB (b : Nat) : Bool :=
  (48 ≤ b && b ≤ 57) || (65 ≤ b && b ≤ 70) || (97 ≤ b && b ≤ 102)

/-- Value of an ASCII hexadecimal digit byte. -/
def hexVal (b : Nat) : Nat :=
  if b ≤ 57 then b - 48 else if b ≤ 70 then b - 55 else b - 87

/-- Python `int(item, 16)` restricted to the byte strings of length at
most 2 produced by `item[:2]` in `unquote`: an optional sign or one
surrounding ASCII whitespace byte around a nonempty run of hex digits
(an underscore cannot occur in a valid numeral this short); `none` is
the `ValueError` raised on anything else. -/
def pyIntHex16 : List Nat → Option Int
  | [] => none
  | [b] => if isHexDigitB b then some (hexVal b) else none
  | [b1, b2] =>
    if isHexDigitB b1 && isHexDigitB b2 then
      some (16 * hexVal b1 + hexVal b2)
    else if b1 = 43 && isHexDigitB b2 then some (hexVal b2)
    else if b1 = 45 && isHexDigitB b2 then some (-(hexVal b2 : Int))
    else if isPyIntWsB b1 && isHexDigitB b2 then some (hexVal b2)
    else if isHexDigitB b1 && isPyIntWsB b2 then some (hexVal b1)
    else none
  | _ => none

/-- Exceptions `unquote` can raise. -/
inductive PyErr where
  | valueError
  | unicodeDecodeError
deriving DecidableEq

/-- The decode loop of `unquote` over `bits[1:]`.  For each item the
source runs `append(int(item[:2], 16)); extend(item[2:])` under
`except KeyError`.  `int` raises `ValueError` (not `KeyError`) on a
non-hex pair, and `bytearray.append` raises `ValueError` on a negative
value, so the handler never fires and those errors escape. -/
def unquoteLoop (acc : List Nat) : List (List Nat) → Except PyErr (List Nat)
  | [] => .ok acc
  | item :: rest =>
    match pyIntHex16 (item.take 2) with
    | none => .error .valueError
    | some v =>
      if v < 0 ∨ 255 < v then .error .valueError
      else unquoteLoop (acc ++ [v.toNat] ++ item.drop 2) rest

/-- Model of `unquote(string)`: empty input gives `""`; the UTF-8 bytes
of the input are split on `%` (byte 37); a single piece is decoded back
unchanged; otherwise the first piece is kept and every later piece is
processed by `unquoteLoop`, after which the bytes are decoded as UTF-8. -/
def unquote (s : String) : Except PyErr String :=
  if s.data.isEmpty then .ok ""
  else
    let bytes := utf8Encode s
    let bits := splitOnByte 37 bytes
    if bits.length = 1 then
      match utf8Decode bytes with
      | some cs => .ok (String.mk cs)
      | none => .error .unicodeDecodeError
    else
      match bits with
      | [] => .error .valueError
      | first :: rest =>
        match unquoteLoop first rest with
        | .error e => .error e
        | .ok res =>
          match utf8Decode res with
          | some cs => .ok (String.mk cs)
          | none => .error .unicodeDecodeError

/-- C1 (code_bug evidence): on the valid request line
`"GET /a/b?x=1 HTTP/1.0"` the method parses as `"GET"` and the query
string as `"x=1"` exactly as claimed, but `get_request_path` returns
only the last path segment `"/b"` — the capture of the repeated group
`(/[-a-zA-Z0-9_.]*)*` — and not the full path `"/a/b"` the claim (and
the spec's intent, §9 of the spec) requires. -/
theorem requestLine_parse_eval :
    getRequestMethod "GET /a/b?x=1 HTTP/1.0\r\nHost: h\r\n\r\n" = some "GET" ∧
    getRequestQueryString "GET /a/b?x=1 HTTP/1.0\r\nHost: h\r\n\r\n" = "x=1" ∧
    getRequestPath "GET /a/b?x=1 HTTP/1.0\r\nHost: h\r\n\r\n" =
      some (some "/b") ∧
    ("/b" : String) ≠ "/a/b" := by
  refine ⟨by decide, by decide, by decide, by decide⟩

/-- C2 (code_bug evidence): on `"a%zz"` — a `%` followed by a non-hex
pair — `unquote` raises an uncaught `ValueError`: `int(b"zz", 16)`
raises `ValueError` while the `except` clause only catches `KeyError`,
so the intended literal-`%` fallback in that handler is unreachable and
the decoder is not total. -/
theorem unquote_malformed_raises :
    unquote "a%zz" = .error PyErr.valueError := rfl

/-- C3 (counterexample): for the buffer
`"GET / HTTP/1.0\r\n\r\nline1\nline2"`, whose body spans two lines,
`get_request_body` returns only `"line1"` — the pattern `\r\n\r\n(.+)`
is compiled without `DOTALL`, so `(.+)` stops at the first `'\n'` —
and not everything up to the end of the buffer as claimed. -/
theorem getRequestBody_truncation_counterexample :
    getRequestBody "GET / HTTP/1.0\r\n\r\nline1\nline2" = some "line1" ∧
    some ("line1" : String) ≠ some ("line1\nline2" : String) := by
  refine ⟨by decide, by decide⟩

/-- C4 (counterexample): `parse_query_string("a=b=c")` maps `"a"` to
`"b"`, not to `"b=c"`: the source splits the token on every `"="` and
keeps only `param[1]`, discarding the rest, instead of splitting once. -/
theorem parseQueryString_split_counterexample :
    parseQueryString "a=b=c" = [("a", "b")] ∧
    parseQueryString "a=b=c" ≠ [("a", "b=c")] := by
  refine ⟨by decide, by decide⟩

/-- C5 (counterexample): `send_binary_response` writes the
caller-supplied `file_size` argument into the `Content-Length` header
without checking it: called with a 2-byte body and `file_size = 5` it
emits `"Content-Length:5"` while sending 2 bytes, refuting the claim
that the header always equals the number of bytes written. -/
theorem sendBinaryResponse_contentLength_counterexample :
    sendBinaryResponse [104, 105] 5 200 "application/octet-stream" none =
      .ok [SendEvent.text "HTTP/1.0 200 Ok\r\n",
           SendEvent.text "Content-Type:application/octet-stream\r\n",
           SendEvent.text "Content-Length:5\r\n",
           SendEvent.text "\r\n",
           SendEvent.binary [104, 105]] ∧
    ([104, 105] : List Nat).length = 2 ∧ (5 : Nat) ≠ 2 := by
  refine ⟨rfl, rfl, by decide⟩

/-- C5 (amended): the `Content-Length` value emitted by
`send_binary_response` is exactly `str(file_size)` for the
caller-supplied `file_size` argument, and the bytes sent through the
binary path are exactly the body; the two agree only when the caller
passes `file_size` equal to the body's byte length. -/
theorem sendBinaryResponse_contentLength_is_fileSize
    (response : List Nat) (fileSize httpCode : Nat) (ct : String)
    (reason : String) (h : dictGet httpCode HTTP_CODES = some reason) :
    sendBinaryResponse response fileSize httpCode ct none =
      .ok [SendEvent.text ("HTTP/1.0 " ++ Nat.repr httpCode ++ " " ++ reason
             ++ "\r\n"),
           SendEvent.text ("Content-Type:" ++ ct ++ "\r\n"),
           SendEvent.text ("Content-Length:" ++ Nat.repr fileSize ++ "\r\n"),
           SendEvent.text "\r\n",
           SendEvent.binary response] := by
  simp [sendBinaryResponse, h]

/-- Witness for `sendBinaryResponse_contentLength_is_fileSize` at a
2-byte body with a matching `file_size` of 2. -/
theorem sendBinaryResponse_contentLength_is_fileSize_witness :
    sendBinaryResponse [104, 105] 2 200 "application/octet-stream" none =
      .ok [SendEvent.text ("HTTP/1.0 " ++ Nat.repr 200 ++ " " ++ "Ok"
             ++ "\r\n"),
           SendEvent.text ("Content-Type:" ++ "application/octet-stream"
             ++ "\r\n"),
           SendEvent.text ("Content-Length:" ++ Nat.repr 2 ++ "\r\n"),
           SendEvent.text "\r\n",
           SendEvent.binary [104, 105]] :=
  sendBinaryResponse_contentLength_is_fileSize [104, 105] 2 200
    "application/octet-stream" "Ok" (by decide)

/-- C6: `send_response(transport, "hi", 404)` with the default content
type and no extra headers sends, in order and with nothing else, the
status line `"HTTP/1.0 404 Not found\r\n"`, then
`"Content-Type:text/html\r\n"`, the blank line `"\r\n"`, and the body
`"hi"`. -/
theorem sendResponse_404_trace :
    sendResponse "hi" 404 "text/html" none =
      .ok ["HTTP/1.0 404 Not found\r\n", "Content-Type:text/html\r\n",
           "\r\n", "hi"] := rfl

/-- C10: for every status code that is not a key of `HTTP_CODES`, the
reason-phrase lookup yields `None`, the string concatenation building
the status line raises `TypeError` before the first `server.send` call
runs, and so nothing at all is written to the transport. -/
theorem sendResponse_unknown_code_no_send
    (response : String) (httpCode : Nat) (ct : String)
    (extendHeaders : Option (List String))
    (h : dictGet httpCode HTTP_CODES = none) :
    sendResponse response httpCode ct extendHeaders = .error [] := by
  simp [sendResponse, h]

/-- Witness for `sendResponse_unknown_code_no_send` at status code 599,
which is absent from `HTTP_CODES`. -/
theorem sendResponse_unknown_code_no_send_witness :
    dictGet 599 HTTP_CODES = none ∧
    sendResponse "x" 599 "text/html" none = .error [] :=
  ⟨by decide, sendResponse_unknown_code_no_send "x" 599 "text/html" none
    (by decide)⟩

/-- Splitting a list without the separator yields one piece. -/
theorem splitOnChar_of_not_mem (sep : Char) (l : List Char)
    (h : sep ∉ l) : splitOnChar sep l = [l] := by
  induction l with
  | nil => rfl
  | cons c rest ih =>
    have hc : c ≠ sep := fun hc => h (hc ▸ List.mem_cons_self c rest)
    have hrest : sep ∉ rest := fun hr => h (List.mem_cons_of_mem c hr)
    simp [splitOnChar, hc, ih hrest]

/-- Splitting at the first separator occurrence peels off the
separator-free part before it. -/
theorem splitOnChar_append_cons (sep : Char) (l1 l2 : List Char)
    (h : sep ∉ l1) :
    splitOnChar sep (l1 ++ sep :: l2) = l1 :: splitOnChar sep l2 := by
  induction l1 with
  | nil => simp [splitOnChar]
  | cons c rest ih =>
    have hc : c ≠ sep := fun hc => h (hc ▸ List.mem_cons_self c rest)
    have hrest : sep ∉ rest := fun hr => h (List.mem_cons_of_mem c hr)
    simp [splitOnChar, hc, ih hrest]

/-- One `key=value` token with no stray separators parses into `param =
[key, value]`, so the fold step writes `(key, value)` into the dict. -/
theorem parseQueryString_step (kd vd : List Char)
    (hk : '=' ∉ kd) (hv : '=' ∉ vd) :
    splitOnChar '=' (kd ++ '=' :: vd) = [kd, vd] := by
  rw [splitOnChar_append_cons '=' kd vd hk, splitOnChar_of_not_mem '=' vd hv]

/-- C4 (amended): `parse_query_string` splits a token on every `'='`
and keeps only the first two fields: for every token
`key ++ "=" ++ v ++ "=" ++ w` whose pieces contain no `'&'` or `'='`,
the mapping assigns to `key` only the field `v` between the first and
second `'='`; the remainder `"=" ++ w` is discarded. -/
theorem parseQueryString_keeps_second_field (k v w : String)
    (hk : '&' ∉ k.data ∧ '=' ∉ k.data)
    (hv : '&' ∉ v.data ∧ '=' ∉ v.data)
    (hw : '&' ∉ w.data ∧ '=' ∉ w.data) :
    parseQueryString (k ++ "=" ++ v ++ "=" ++ w) = [(k, v)] := by
  obtain ⟨kd⟩ := k
  obtain ⟨vd⟩ := v
  obtain ⟨wd⟩ := w
  have hdata : (String.mk kd ++ "=" ++ String.mk vd ++ "=" ++ String.mk wd).data
      = kd ++ '=' :: (vd ++ '=' :: wd) := by
    simp [String.data_append]
  have hne : kd ++ '=' :: (vd ++ '=' :: wd) ≠ [] := by simp
  have hsplitAmp : splitOnChar '&' (kd ++ '=' :: (vd ++ '=' :: wd))
      = [kd ++ '=' :: (vd ++ '=' :: wd)] := by
    apply splitOnChar_of_not_mem
    intro hmem
    simp only [List.mem_append, List.mem_cons] at hmem
    rcases hmem with h | h | h | h | h
    · exact hk.1 h
    · exact absurd h (by decide)
    · exact hv.1 h
    · exact absurd h (by decide)
    · exact hw.1 h
  have hsplitEq : splitOnChar '=' (kd ++ '=' :: (vd ++ '=' :: wd))
      = [kd, vd, wd] := by
    rw [splitOnChar_append_cons '=' kd _ hk.2,
      splitOnChar_append_cons '=' vd wd hv.2,
      splitOnChar_of_not_mem '=' wd hw.2]
  simp only [parseQueryString, hdata, hne, List.isEmpty_iff, if_neg hne,
    hsplitAmp, List.foldl_cons, List.foldl_nil, hsplitEq]
  simp [dictUpsert]

/-- Witness for `parseQueryString_keeps_second_field` at the token
`"a=b=c"`. -/
theorem parseQueryString_keeps_second_field_witness :
    parseQueryString ("a" ++ "=" ++ "b" ++ "=" ++ "c") = [("a", "b")] :=
  parseQueryString_keeps_second_field "a" "b" "c"
    ⟨by decide, by decide⟩ ⟨by decide, by decide⟩ ⟨by decide, by decide⟩

/-- General last-wins fact behind C7: for a query string made of two
tokens with the same key (pieces free of `'&'` and `'='`), the dict
update of the second token overwrites the first, so the key maps to the
second value. -/
theorem parseQueryString_last_wins_aux (k v w : String)
    (hk : '&' ∉ k.data ∧ '=' ∉ k.data)
    (hv : '&' ∉ v.data ∧ '=' ∉ v.data)
    (hw : '&' ∉ w.data ∧ '=' ∉ w.data) :
    parseQueryString (k ++ "=" ++ v ++ "&" ++ k ++ "=" ++ w) = [(k, w)] := by
  obtain ⟨kd⟩ := k
  obtain ⟨vd⟩ := v
  obtain ⟨wd⟩ := w
  have hdata : (String.mk kd ++ "=" ++ String.mk vd ++ "&" ++ String.mk kd
      ++ "=" ++ String.mk wd).data
      = (kd ++ '=' :: vd) ++ '&' :: (kd ++ '=' :: wd) := by
    simp [String.data_append]
  have hne : (kd ++ '=' :: vd) ++ '&' :: (kd ++ '=' :: wd) ≠ [] := by simp
  have hsplitAmp : splitOnChar '&' ((kd ++ '=' :: vd) ++ '&' :: (kd ++ '=' :: wd))
      = [kd ++ '=' :: vd, kd ++ '=' :: wd] := by
    rw [splitOnChar_append_cons '&' _ _ ?_, splitOnChar_of_not_mem '&' _ ?_]
    · intro hmem
      simp only [List.mem_append, List.mem_cons] at hmem
      rcases hmem with h | h | h
      · exact hk.1 h
      · exact absurd h (by decide)
      · exact hw.1 h
    · intro hmem
      simp only [List.mem_append, List.mem_cons] at hmem
      rcases hmem with h | h | h
      · exact hk.1 h
      · exact absurd h (by decide)
      · exact hv.1 h
  simp only [parseQueryString, hdata, if_neg hne, List.isEmpty_iff, hsplitAmp,
    List.foldl_cons, List.foldl_nil,
    parseQueryString_step kd vd hk.2 hv.2,
    parseQueryString_step kd wd hk.2 hw.2]
  simp [dictUpsert]

/-- C7: the algebra of `parse_query_string`: empty input gives the
empty mapping; `"a=1&b=2"` parses to both pairs; a token without `'='`
maps to the empty value; and a repeated key takes the value of its last
occurrence — concretely (`"a=1&a=2"`) and for every two-token query
string `k=v&k=w` with plain pieces. -/
theorem parseQueryString_spec :
    parseQueryString "" = [] ∧
    parseQueryString "a=1&b=2" = [("a", "1"), ("b", "2")] ∧
    parseQueryString "flag" = [("flag", "")] ∧
    parseQueryString "a=1&a=2" = [("a", "2")] ∧
    (∀ k v w : String,
      '&' ∉ k.data ∧ '=' ∉ k.data →
      '&' ∉ v.data ∧ '=' ∉ v.data →
      '&' ∉ w.data ∧ '=' ∉ w.data →
      parseQueryString (k ++ "=" ++ v ++ "&" ++ k ++ "=" ++ w) = [(k, w)]) :=
  ⟨by decide, by decide, by decide, by decide, parseQueryString_last_wins_aux⟩

/-- Witness for the quantified last-wins part of `parseQueryString_spec`
at `"x=1&x=2"`. -/
theorem parseQueryString_spec_witness :
    parseQueryString ("x" ++ "=" ++ "1" ++ "&" ++ "x" ++ "=" ++ "2")
      = [("x", "2")] :=
  parseQueryString_spec.2.2.2.2 "x" "1" "2"
    ⟨by decide, by decide⟩ ⟨by decide, by decide⟩ ⟨by decide, by decide⟩

/-- C8: whenever the request method parses at all,
`get_request_post_params(request, expected_method)` returns `None`
exactly when the parsed method differs from `expected_method`, and
returns the body parsed as a query-string mapping when it matches. -/
theorem getRequestPostParams_method_gate (request expectedMethod m : String)
    (h : getRequestMethod request = some m) :
    (getRequestPostParams request expectedMethod = some none
      ↔ m ≠ expectedMethod) ∧
    (m = expectedMethod →
      getRequestPostParams request expectedMethod
        = some (some (parseQueryStringOfBody (getRequestBody request)))) := by
  constructor
  · by_cases hm : m = expectedMethod
    · simp [getRequestPostParams, h, hm]
    · simp [getRequestPostParams, h, hm]
  · intro hm
    simp [getRequestPostParams, h, hm]

/-- Witness for `getRequestPostParams_method_gate`: a POST request with
body `"a=1&b=2"` checked against expected methods `"POST"` (mapping
returned) and `"GET"` (`None` returned). -/
theorem getRequestPostParams_method_gate_witness :
    (getRequestPostParams "POST /x HTTP/1.0\r\n\r\na=1&b=2" "POST"
      = some (some (parseQueryStringOfBody
          (getRequestBody "POST /x HTTP/1.0\r\n\r\na=1&b=2")))) ∧
    getRequestPostParams "POST /x HTTP/1.0\r\n\r\na=1&b=2" "GET" = some none :=
  ⟨(getRequestPostParams_method_gate "POST /x HTTP/1.0\r\n\r\na=1&b=2" "POST"
      "POST" (by decide)).2 rfl,
   (getRequestPostParams_method_gate "POST /x HTTP/1.0\r\n\r\na=1&b=2" "GET"
      "POST" (by decide)).1.mpr (by decide)⟩

/-- `takeWhile` over an append whose left part all satisfies the test
and whose next element fails it keeps exactly the left part. -/
theorem takeWhile_all_append (p : Char → Bool) (l1 : List Char) (x : Char)
    (l2 : List Char) (h1 : ∀ c ∈ l1, p c = true) (hx : p x = false) :
    (l1 ++ x :: l2).takeWhile p = l1 := by
  induction l1 with
  | nil => simp [List.takeWhile, hx]
  | cons c rest ih =>
    have hc := h1 c (List.mem_cons_self c rest)
    simpa [List.takeWhile, hc]
      using ih (fun d hd => h1 d (List.mem_cons_of_mem c hd))

/-- A buffer with no `"\r\n\r\n"` occurrence makes the body search fail. -/
theorem bodyScan_none_of_no_sep (l : List Char)
    (h : ¬ ∃ s t, l = s ++ ['\r', '\n', '\r', '\n'] ++ t) :
    bodyScan l = none := by
  induction l with
  | nil => rfl
  | cons c rest ih =>
    by_cases hc : c = '\r' ∧ rest.take 3 = ['\n', '\r', '\n']
    · exfalso
      apply h
      refine ⟨[], rest.drop 3, ?_⟩
      have hrest : rest = ['\n', '\r', '\n'] ++ rest.drop 3 := by
        conv_lhs => rw [← List.take_append_drop 3 rest]
        rw [hc.2]
      rw [hc.1]
      conv_lhs => rw [hrest]
      simp
    · simp only [bodyScan, if_neg hc]
      exact ih (fun hex => h (by
        obtain ⟨s, t, hst⟩ := hex
        exact ⟨c :: s, t, by simp [hst]⟩))

/-- C3 (amended): `get_request_body` truncates the body at its first
newline.  For every body of the form `b1 ++ "\n" ++ b2` (with `b1`
nonempty and newline-free) after a standard header block, only `b1` is
returned, not everything to the end of the buffer; and for every buffer
with no `"\r\n\r\n"` occurrence at all the search fails and the Python
empty dict `{}` is returned. -/
theorem getRequestBody_first_line_only :
    (∀ b1 b2 : String, b1.data ≠ [] → (∀ c ∈ b1.data, c ≠ '\n') →
      getRequestBody ("GET / HTTP/1.0\r\nHost: x\r\n\r\n" ++ b1 ++ "\n" ++ b2)
        = some b1) ∧
    (∀ request : String,
      (¬ ∃ s t, request.data = s ++ ['\r', '\n', '\r', '\n'] ++ t) →
      getRequestBody request = none) := by
  constructor
  · intro b1 b2 hne hnl
    obtain ⟨b1d⟩ := b1
    obtain ⟨b2d⟩ := b2
    have hlit : ("GET / HTTP/1.0\r\nHost: x\r\n\r\n" : String).data
        = ['G', 'E', 'T', ' ', '/', ' ', 'H', 'T', 'T', 'P', '/', '1', '.',
           '0', '\r', '\n', 'H', 'o', 's', 't', ':', ' ', 'x', '\r', '\n',
           '\r', '\n'] := rfl
    have hnlstr : ("\n" : String).data = ['\n'] := rfl
    have htw : (b1d ++ '\n' :: b2d).takeWhile (fun x => x != '\n') = b1d := by
      apply takeWhile_all_append
      · intro c hcmem
        simpa using hnl c hcmem
      · simp
    have hb1 : b1d.isEmpty = false := by
      cases b1d with
      | nil => exact absurd rfl hne
      | cons c cs => rfl
    unfold getRequestBody
    simp only [String.data_append, hlit, hnlstr, List.cons_append,
      List.nil_append, List.append_assoc]
    simp only [bodyScan, List.take_succ_cons, List.take_zero, List.drop_succ_cons,
      List.drop_zero, htw, hb1]
    simp [htw, hb1]
  · intro request h
    unfold getRequestBody
    rw [bodyScan_none_of_no_sep request.data h]
    rfl

/-- Witness for `getRequestBody_first_line_only`: the two-line body
`"line1\nline2"` is cut to `"line1"`, and the bodyless buffer `"GET /"`
gives the empty-dict result. -/
theorem getRequestBody_first_line_only_witness :
    getRequestBody ("GET / HTTP/1.0\r\nHost: x\r\n\r\n" ++ "line1" ++ "\n"
      ++ "line2") = some "line1" ∧
    getRequestBody "GET /" = none :=
  ⟨getRequestBody_first_line_only.1 "line1" "line2" (by decide) (by decide),
   getRequestBody_first_line_only.2 "GET /" (by
    rintro ⟨s, t, h⟩
    have h5 : ("GET /" : String).data = ['G', 'E', 'T', ' ', '/'] := rfl
    rw [h5] at h
    rcases s with _ | ⟨a, _ | ⟨b, _ | ⟨c, _ | ⟨d, _ | ⟨e, s⟩⟩⟩⟩⟩ <;> simp_all)⟩

/-- An ASCII character encodes to its single code-point byte. -/
theorem utf8EncodeChar_ascii (c : Char) (h : c.toNat < 128) :
    utf8EncodeChar c = [c.toNat] := by
  simp [utf8EncodeChar, h]

/-- An all-ASCII string encodes byte-for-byte to its code points. -/
theorem utf8Encode_ascii (cs : List Char) (h : ∀ c ∈ cs, c.toNat < 128) :
    utf8Encode (String.mk cs) = cs.map Char.toNat := by
  unfold utf8Encode
  induction cs with
  | nil => rfl
  | cons c rest ih =>
    have hc := h c (List.mem_cons_self c rest)
    have hrest := ih (fun d hd => h d (List.mem_cons_of_mem c hd))
    simp only [List.map_cons, List.flatten_cons, utf8EncodeChar_ascii c hc]
    simp only [String.data] at hrest
    simp [hrest]

/-- With enough fuel, the decode loop restores an all-ASCII string from
its code-point bytes. -/
theorem utf8DecodeLoop_ascii (cs : List Char) (fuel : Nat)
    (hfuel : cs.length ≤ fuel) (h : ∀ c ∈ cs, c.toNat < 128) :
    utf8DecodeLoop fuel (cs.map Char.toNat) = some cs := by
  induction cs generalizing fuel with
  | nil =>
    cases fuel with
    | zero => rfl
    | succ f => rfl
  | cons c rest ih =>
    have hc := h c (List.mem_cons_self c rest)
    have hrest := fun f hf => ih f hf (fun d hd => h d (List.mem_cons_of_mem c hd))
    cases fuel with
    | zero => exact absurd hfuel (by simp)
    | succ f =>
      show utf8DecodeLoop (f + 1) (c.toNat :: rest.map Char.toNat)
        = some (c :: rest)
      simp only [utf8DecodeLoop]
      rw [if_pos (show c.toNat < 0x80 from hc)]
      rw [hrest f (Nat.le_of_succ_le_succ hfuel), Char.ofNat_toNat]
      rfl

/-- Decoding the code-point bytes of an all-ASCII string restores it. -/
theorem utf8Decode_ascii (cs : List Char) (h : ∀ c ∈ cs, c.toNat < 128) :
    utf8Decode (cs.map Char.toNat) = some cs := by
  unfold utf8Decode
  rw [List.length_map]
  exact utf8DecodeLoop_ascii cs cs.length (Nat.le_refl _) h

/-- Splitting a byte list without the separator yields one piece. -/
theorem splitOnByte_of_not_mem (sep : Nat) (l : List Nat)
    (h : sep ∉ l) : splitOnByte sep l = [l] := by
  induction l with
  | nil => rfl
  | cons b rest ih =>
    have hb : b ≠ sep := fun hb => h (hb ▸ List.mem_cons_self b rest)
    have hrest : sep ∉ rest := fun hr => h (List.mem_cons_of_mem b hr)
    simp [splitOnByte, hb, ih hrest]

/-- C9: round-trip identity — for every nonempty all-ASCII string with
no `'%'` (in particular, none of the URL-reserved characters that get
percent-encoded), `unquote` returns the input unchanged: its UTF-8
bytes contain no byte 37, the split yields a single piece, and decoding
the unchanged bytes restores the string. -/
theorem unquote_identity_ascii (s : String) (hne : s.data ≠ [])
    (hascii : ∀ c ∈ s.data, c.toNat < 128)
    (hpct : ∀ c ∈ s.data, c ≠ '%') :
    unquote s = .ok s := by
  obtain ⟨cs⟩ := s
  have hie : cs.isEmpty = false := by
    cases cs with
    | nil => exact absurd rfl hne
    | cons c rest => rfl
  have henc : utf8Encode (String.mk cs) = cs.map Char.toNat :=
    utf8Encode_ascii cs hascii
  have h37 : (37 : Nat) ∉ cs.map Char.toNat := by
    intro hmem
    obtain ⟨c, hc, htn⟩ := List.mem_map.mp hmem
    have hc37 : c = '%' := by
      have h1 := congrArg Char.ofNat htn
      rw [Char.ofNat_toNat] at h1
      exact h1.trans (by decide)
    exact hpct c hc hc37
  have hsplit : splitOnByte 37 (cs.map Char.toNat) = [cs.map Char.toNat] :=
    splitOnByte_of_not_mem 37 _ h37
  have hdec : utf8Decode (cs.map Char.toNat) = some cs :=
    utf8Decode_ascii cs hascii
  simp [unquote, hie, henc, hsplit, hdec]

/-- Witness for `unquote_identity_ascii` at `"abc"`. -/
theorem unquote_identity_ascii_witness : unquote "abc" = .ok "abc" :=
  unquote_identity_ascii "abc" (by decide) (by decide) (by decide)
